import Mathlib

/-!
Shallow embedding of the executor construction-time compliance pipeline of
`src/core/tc_executor.cc` (TensorComprehensions).

The file models, from the source:
  * `toTypeToken` (lines 39-42) and the inlined canonicalization in
    `checkInputsCompliant` (lines 115-120);
  * `checkSizesAndStridesAreCompliant`, single-tensor form (lines 46-71)
    and vector form (lines 73-86);
  * `checkInputsCompliant` (lines 101-134);
  * `parseOneFunction` (lines 29-37);
  * the two `TcExecutor` constructors (lines 137-152) and
    `getHalidePencilState` (lines 155-167).

External collaborators that are declared elsewhere in the repository
(`lang::Parser`, `lang::TypeInfo`, `tc2halide::translate`, `toPencil`,
`dlutils::makeDLTensorVector`) are modelled from the spec, as noted on each
definition, or passed as explicit function parameters.

Machine integers (`int`, `int64_t`, `size_t`) are modelled by `Nat`/`Int`;
none of the quantities involved (ranks, counts, dimension indices, sizes)
can overflow in the source's use.
-/

/-- Canonical scalar tokens of the frontend (`TK_BOOL`, `TK_UINT8`, ...,
`TK_FLOAT`, `TK_DOUBLE`). Modelled from the spec: the canonical token
vocabulary covers element classes signed-int, unsigned-int, float and bool,
each at its supported bit widths; bool is carried as the unsigned class at
bit width 1. -/
inductive ScalarToken where
  | tkBool
  | tkUInt8
  | tkUInt16
  | tkUInt32
  | tkUInt64
  | tkInt8
  | tkInt16
  | tkInt32
  | tkInt64
  | tkFloat
  | tkDouble
deriving DecidableEq, Repr

/-- The class-code + bit-width pair fed to the canonicalizer
(`lang::TypeInfo(Code, bits)`). Modelled from the spec: the class-code
enumeration is shared by the two native representations (signed-int = 0,
unsigned-int = 1, float = 2), which is what lets the source cast both
`DLDataType::code` and `Halide::Type::code()` into `lang::TypeInfo::Code`. -/
structure TypeInfo where
  code : Nat
  bits : Nat
deriving DecidableEq, Repr

/-- Modelled from the spec: `lang::TypeInfo::toScalarToken` (declared in
`tc/lang`, not under `src/`) maps each supported (class, bits) pair to its
canonical frontend token; unsupported pairs have no token (`none`). -/
def TypeInfo.toScalarToken (t : TypeInfo) : Option ScalarToken :=
  match t.code, t.bits with
  | 0, 8 => some .tkInt8
  | 0, 16 => some .tkInt16
  | 0, 32 => some .tkInt32
  | 0, 64 => some .tkInt64
  | 1, 1 => some .tkBool
  | 1, 8 => some .tkUInt8
  | 1, 16 => some .tkUInt16
  | 1, 32 => some .tkUInt32
  | 1, 64 => some .tkUInt64
  | 2, 32 => some .tkFloat
  | 2, 64 => some .tkDouble
  | _, _ => none

/-- Element class of a canonical token (retraction of `toScalarToken`). -/
def ScalarToken.typeClass : ScalarToken → Nat
  | .tkInt8 | .tkInt16 | .tkInt32 | .tkInt64 => 0
  | .tkBool | .tkUInt8 | .tkUInt16 | .tkUInt32 | .tkUInt64 => 1
  | .tkFloat | .tkDouble => 2

/-- Bit width of a canonical token (retraction of `toScalarToken`). -/
def ScalarToken.width : ScalarToken → Nat
  | .tkBool => 1
  | .tkInt8 | .tkUInt8 => 8
  | .tkInt16 | .tkUInt16 => 16
  | .tkInt32 | .tkUInt32 => 32
  | .tkInt64 | .tkUInt64 => 64
  | .tkFloat => 32
  | .tkDouble => 64

/-- The DLPack element-type descriptor `DLDataType` (fields used by the
source: `code`, `bits`). -/
structure DLDataType where
  code : Nat
  bits : Nat
deriving DecidableEq, Repr

/-- A DLPack tensor descriptor `DLTensor`, restricted to the fields the
compliance pipeline reads: element type and shape. `ndim` is the length of
`shape` (DLPack well-formedness: the shape array has exactly `ndim`
entries). -/
structure DLTensor where
  dtype : DLDataType
  shape : List Int
deriving DecidableEq, Repr

instance : Inhabited DLTensor := ⟨⟨⟨0, 0⟩, []⟩⟩

/-- `ndim` field of a descriptor: the length of its shape array. -/
def DLTensor.ndim (t : DLTensor) : Nat := t.shape.length

/-- `toTypeToken` (tc_executor.cc lines 39-42): canonicalize a raw DLPack
class-code + bit-width pair through `lang::TypeInfo`. -/
def toTypeToken (dtype : DLDataType) : Option ScalarToken :=
  TypeInfo.toScalarToken ⟨dtype.code, dtype.bits⟩

/-- The IR-native element type (`Halide::Type`), exposing its class accessor
`code()` and bit-width accessor `bits()`. Modelled from the spec: its class
codes coincide with the shared enumeration of `TypeInfo`. -/
structure HalideType where
  code : Nat
  bits : Nat
deriving DecidableEq, Repr

/-- Canonicalization of an IR-native type, as inlined in
`checkInputsCompliant` (tc_executor.cc lines 118-120):
`lang::TypeInfo(Code(htype_.code()), htype_.bits()).toScalarToken()`. -/
def halideTypeToken (h : HalideType) : Option ScalarToken :=
  TypeInfo.toScalarToken ⟨h.code, h.bits⟩

/-- A declared input of the translated IR (`halideComponents.inputs[i]`):
its element type (`type()`) and dimensionality (`dimensions()`). -/
structure HalideImageParam where
  type : HalideType
  dimensions : Nat
deriving DecidableEq, Repr

/-- The IR components produced by the external translator
(`tc2halide::HalideComponents`), restricted to the field the validator
reads: the ordered list of declared inputs. -/
structure HalideComponents where
  inputs : List HalideImageParam
deriving DecidableEq, Repr

/-- Structured error taxonomy of the compliance pipeline. Each constructor
records the machine-readable payload of the corresponding
`lang::ErrorReport` message in the source; positions stand for the
parameter/tensor index carried by the debug handle (`dbgInfo[i]`,
`params()[i]`). `outOfBoundsRead` models the undefined behaviour a C++
out-of-bounds vector access would be; the safety claims prove it
unreachable. -/
inductive TcError where
  | syntaxError (loc : Nat)
  | translationError (payload : Nat)
  | arityError (expected actual : Nat)
  | typeMismatch (pos : Nat) (expected actual : Option ScalarToken)
  | rankMismatch (pos : Nat) (expected actual : Nat)
  | shapeMismatch (pos dim : Nat) (expected actual : Int)
  | outOfBoundsRead (pos dim : Nat)
deriving DecidableEq, Repr

/-- The per-dimension loop of the single-tensor check (tc_executor.cc lines
61-70): `for (int i = 0; i < shapeA.size(); ++i)` compares `shapeA[i]`
against `shapeE[i]`. The loop is bounded by the ACTUAL shape (`shapeA`,
traversed structurally here) while indexing the EXPECTED shape (`shapeE`,
accessed by position); an access past the end of `shapeE` — undefined
behaviour in C++ — is surfaced as `outOfBoundsRead`. -/
def shapeCheckLoop (pos : Nat) (shapeE : List Int) : List Int → Nat → Except TcError Unit
  | [], _ => .ok ()
  | a :: rest, i =>
    match shapeE.get? i with
    | none => .error (.outOfBoundsRead pos i)
    | some e =>
      if a ≠ e then .error (.shapeMismatch pos i e a)
      else shapeCheckLoop pos shapeE rest (i + 1)

/-- Single-tensor mode-B check, `checkSizesAndStridesAreCompliant(actual,
expected, dbg)` (tc_executor.cc lines 46-71): rank first, then canonical
dtype, then the per-dimension shape loop. `pos` is the tensor index carried
by the debug handle. -/
def checkSizesAndStridesAreCompliantOne
    (pos : Nat) (actual expected : DLTensor) : Except TcError Unit :=
  if actual.ndim ≠ expected.ndim then
    .error (.rankMismatch pos expected.ndim actual.ndim)
  else if toTypeToken actual.dtype ≠ toTypeToken expected.dtype then
    .error (.typeMismatch pos (toTypeToken expected.dtype) (toTypeToken actual.dtype))
  else
    shapeCheckLoop pos expected.shape actual.shape 0

/-- The per-tensor loop of the vector mode-B check (tc_executor.cc lines
82-85): positions ascending, stopping at the first failing tensor. -/
def checkTensorsLoop : Nat → List DLTensor → List DLTensor → Except TcError Unit
  | _, [], _ => .ok ()
  | _, _ :: _, [] => .ok ()
  | i, a :: as, e :: es =>
    match checkSizesAndStridesAreCompliantOne i a e with
    | .error err => .error err
    | .ok () => checkTensorsLoop (i + 1) as es

/-- Vector mode-B check, `checkSizesAndStridesAreCompliant(dlTensors,
tensorInfos, dbgInfo)` (tc_executor.cc lines 73-86): count check first
(`tensorInfos` is the expected side), then the per-tensor loop. -/
def checkSizesAndStridesAreCompliant
    (dlTensors tensorInfos : List DLTensor) : Except TcError Unit :=
  if tensorInfos.length ≠ dlTensors.length then
    .error (.arityError tensorInfos.length dlTensors.length)
  else
    checkTensorsLoop 0 dlTensors tensorInfos

/-- The per-position body of the mode-A loop (tc_executor.cc lines 109-133):
canonical dtype comparison FIRST (lines 115-125), then rank comparison
(lines 126-132). -/
def checkInputPos (i : Nat) (t : DLTensor) (p : HalideImageParam) : Except TcError Unit :=
  if toTypeToken t.dtype ≠ halideTypeToken p.type then
    .error (.typeMismatch i (halideTypeToken p.type) (toTypeToken t.dtype))
  else if t.ndim ≠ p.dimensions then
    .error (.rankMismatch i p.dimensions t.ndim)
  else
    .ok ()

/-- The mode-A loop over positions (tc_executor.cc lines 109-133),
ascending, stopping at the first failing position. -/
def checkInputsLoop : Nat → List DLTensor → List HalideImageParam → Except TcError Unit
  | _, [], _ => .ok ()
  | _, _ :: _, [] => .ok ()
  | i, t :: ts, p :: ps =>
    match checkInputPos i t p with
    | .error err => .error err
    | .ok () => checkInputsLoop (i + 1) ts ps

/-- Mode-A check, `checkInputsCompliant(inputsInfo, halideComponents)`
(tc_executor.cc lines 101-134): count check first (lines 104-108), then the
per-position loop. -/
def checkInputsCompliant
    (inputsInfo : List DLTensor) (comps : HalideComponents) : Except TcError Unit :=
  if inputsInfo.length ≠ comps.inputs.length then
    .error (.arityError comps.inputs.length inputsInfo.length)
  else
    checkInputsLoop 0 inputsInfo comps.inputs

/-- A lexer token: kind and source range, as exposed by `parser.L.cur()`. -/
structure Token where
  kind : Nat
  range : Nat
deriving DecidableEq, Repr

/-- The end-of-input token kind `lang::TK_EOF` (opaque constant; only its
distinctness from other kinds matters). -/
def TK_EOF : Nat := 0

/-- Opaque handle to a parsed function AST (`lang::TreeRef`). -/
structure TreeRef where
  id : Nat
deriving DecidableEq, Repr

/-- `parseOneFunction` (tc_executor.cc lines 29-37), parameterized by the
external parser `P`, which models `lang::Parser::parseFunction` followed by
`parser.L.cur()`: it yields the parsed function AST together with the first
unconsumed token, or a syntax error of its own. If the unconsumed token is
not end-of-input, an error citing that token's range is raised ("More than
one TCs were passed to TcExecutor."). -/
def parseOneFunction (P : String → Except TcError (TreeRef × Token))
    (d : String) : Except TcError TreeRef :=
  match P d with
  | .error e => .error e
  | .ok (r, cur) =>
    if cur.kind ≠ TK_EOF then .error (.syntaxError cur.range)
    else .ok r

/-- Mapping-options payload, restricted to the field the pipeline reads:
`proto.fix_parameters_before_scheduling()`. -/
structure MappingOptionsProto where
  fix_parameters_before_scheduling : Bool
deriving DecidableEq, Repr

/-- The execution record `execInfo_` populated during construction:
kernel name, owned input descriptors, owned output descriptors, and the
optional mapping options (absent, `nullptr`, at construction time). -/
structure ExecInfo where
  kernelName : String
  inputsInfo : List DLTensor
  outputsInfo : List DLTensor
  options : Option MappingOptionsProto
deriving DecidableEq, Repr

/-- Result of the external lowering step `toPencil`, restricted to the
field the constructor reads: the inferred output descriptors
(`outputsDLT`). -/
structure HalidePencilState where
  outputsDLT : List DLTensor
deriving DecidableEq, Repr

/-- The external collaborators of the construction pipeline, passed as
explicit functions: the parser (`lang::Parser`), the AST name accessor
(`lang::Def(tree).name().name()`), the translator (`tc2halide::translate`,
with the executor-owned `isl_ctx` left implicit since the core never reads
it), and the output-inference step (`toPencil`). -/
structure Externals where
  parseFunction : String → Except TcError (TreeRef × Token)
  defName : TreeRef → String
  translate : TreeRef → Except TcError HalideComponents
  toPencil : HalideComponents → List DLTensor → Bool → String → Except TcError HalidePencilState

/-- Modelled from the spec: `dlutils::makeDLTensorVector` (declared in
`tc/core/utils/dlpack.h`, not under `src/`) deep-copies each runtime
descriptor into executor-owned storage; in this value model the deep copy
is a field-by-field structural rebuild. -/
def makeDLTensorVector (ts : List DLTensor) : List DLTensor :=
  ts.map (fun t => ⟨⟨t.dtype.code, t.dtype.bits⟩, t.shape.map (fun s => s)⟩)

/-- The specialization flag chosen in `getHalidePencilState`
(tc_executor.cc lines 161-164): if `execInfo_.options` is absent the code
is not specialized (`false`); otherwise the stored
`fix_parameters_before_scheduling` value is used unchanged. -/
def specializationFlag (options : Option MappingOptionsProto) : Bool :=
  match options with
  | some o => o.fix_parameters_before_scheduling
  | none => false

/-- `TcExecutor::getHalidePencilState` (tc_executor.cc lines 155-167):
invoke the external `toPencil` on the translated components, the runtime
input descriptors, the specialization flag derived from the record's
options, and the kernel name. -/
def getHalidePencilState
    (toPencil : HalideComponents → List DLTensor → Bool → String → Except TcError HalidePencilState)
    (comps : HalideComponents) (execInfo : ExecInfo) (inTensorPtrs : List DLTensor) :
    Except TcError HalidePencilState :=
  toPencil comps inTensorPtrs (specializationFlag execInfo.options) execInfo.kernelName

/-- The AST-accepting constructor `TcExecutor::TcExecutor(TreeRef,
inputsInfo)` (tc_executor.cc lines 142-152): read the kernel name,
translate, validate the inputs (mode A), deep-copy the input descriptors
into the record, then run output inference and store its result. Any
stage's error aborts the whole construction. -/
def TcExecutorFromTree (ext : Externals) (tree : TreeRef)
    (inputsInfo : List DLTensor) : Except TcError ExecInfo :=
  let kernelName := ext.defName tree
  match ext.translate tree with
  | .error e => .error e
  | .ok comps =>
    match checkInputsCompliant inputsInfo comps with
    | .error e => .error e
    | .ok () =>
      let execInputs := makeDLTensorVector inputsInfo
      match getHalidePencilState ext.toPencil comps
          ⟨kernelName, execInputs, [], none⟩ inputsInfo with
      | .error e => .error e
      | .ok st => .ok ⟨kernelName, execInputs, st.outputsDLT, none⟩

/-- The text-accepting constructor `TcExecutor::TcExecutor(string,
inputsInfo)` (tc_executor.cc lines 137-140), written out end to end as the
delegating C++ constructor executes: parse one function from the text, then
run the same translate → validate → copy → infer pipeline. -/
def TcExecutorFromText (ext : Externals) (text : String)
    (inputsInfo : List DLTensor) : Except TcError ExecInfo :=
  match parseOneFunction ext.parseFunction text with
  | .error e => .error e
  | .ok tree =>
    let kernelName := ext.defName tree
    match ext.translate tree with
    | .error e => .error e
    | .ok comps =>
      match checkInputsCompliant inputsInfo comps with
      | .error e => .error e
      | .ok () =>
        let execInputs := makeDLTensorVector inputsInfo
        match getHalidePencilState ext.toPencil comps
            ⟨kernelName, execInputs, [], none⟩ inputsInfo with
        | .error e => .error e
        | .ok st => .ok ⟨kernelName, execInputs, st.outputsDLT, none⟩

instance : Inhabited HalideImageParam := ⟨⟨⟨0, 0⟩, 0⟩⟩

/-- The canonicalizer is a section of the (class, bits) projections: a pair
that receives a token can be read back off the token. -/
theorem toScalarToken_retract (t : TypeInfo) (s : ScalarToken)
    (h : t.toScalarToken = some s) : t.code = s.typeClass ∧ t.bits = s.width := by
  unfold TypeInfo.toScalarToken at h
  split at h
  all_goals try (injection h with hs; subst hs; constructor <;> simp_all [ScalarToken.typeClass, ScalarToken.width])
  all_goals simp_all

/-- In the value model the deep copy performed by `makeDLTensorVector` is
the identity on descriptor values. -/
theorem makeDLTensorVector_id (ts : List DLTensor) : makeDLTensorVector ts = ts := by
  unfold makeDLTensorVector
  induction ts with
  | nil => rfl
  | cons t ts ih => simp_all [List.map_cons]

/-- The per-dimension loop never reads past the end of the expected shape
while the starting index plus the remaining actual length stays within the
expected length. -/
theorem shapeCheckLoop_no_oob : ∀ (lA shapeE : List Int) (pos i : Nat),
    i + lA.length ≤ shapeE.length →
    ∀ p d, shapeCheckLoop pos shapeE lA i ≠ .error (.outOfBoundsRead p d) := by
  intro lA
  induction lA with
  | nil =>
    intro shapeE pos i _ p d
    simp [shapeCheckLoop]
  | cons a rest ih =>
    intro shapeE pos i hle p d
    have hi : i < shapeE.length := by
      simp only [List.length_cons] at hle
      omega
    have he := List.get?_eq_get hi
    simp only [shapeCheckLoop, he]
    split
    · simp
    · exact ih shapeE pos (i + 1)
        (by simp only [List.length_cons] at hle; omega) p d

/-- The per-dimension loop reports the first mismatching dimension, index
ascending, with the expected then the actual size. -/
theorem shapeCheckLoop_first_mismatch : ∀ (lA shapeE : List Int) (pos i d : Nat),
    (∀ j, j < d → lA.getD j 0 = shapeE.getD (i + j) 0) →
    d < lA.length →
    i + lA.length ≤ shapeE.length →
    lA.getD d 0 ≠ shapeE.getD (i + d) 0 →
    shapeCheckLoop pos shapeE lA i =
      .error (.shapeMismatch pos (i + d) (shapeE.getD (i + d) 0) (lA.getD d 0)) := by
  intro lA
  induction lA with
  | nil =>
    intro shapeE pos i d _ hd
    simp at hd
  | cons a rest ih =>
    intro shapeE pos i d hpre hd hle hne
    have hi : i < shapeE.length := by
      simp only [List.length_cons] at hle
      omega
    have he : shapeE.get? i = some (shapeE.getD i 0) := by
      rw [List.get?_eq_getElem?, List.getElem?_eq_getElem hi]
      simp [List.getD, List.getElem?_eq_getElem hi]
    cases d with
    | zero =>
      have hne0 : a ≠ shapeE.getD i 0 := by simpa using hne
      simp only [shapeCheckLoop, he]
      rw [if_pos hne0]
      simp
    | succ d =>
      have h0 : a = shapeE.getD i 0 := by simpa using hpre 0 (Nat.succ_pos d)
      simp only [shapeCheckLoop, he]
      rw [if_neg (by simpa using h0)]
      have harith : i + 1 + d = i + (d + 1) := by omega
      have hpre2 : ∀ j, j < d → rest.getD j 0 = shapeE.getD (i + 1 + j) 0 := by
        intro j hj
        have hh := hpre (j + 1) (by omega)
        simp only [List.getD_cons_succ] at hh
        have hj2 : i + (j + 1) = i + 1 + j := by omega
        rw [hj2] at hh
        exact hh
      have hd2 : d < rest.length := by
        simp only [List.length_cons] at hd
        omega
      have hle2 : i + 1 + rest.length ≤ shapeE.length := by
        simp only [List.length_cons] at hle
        omega
      have hne2 : rest.getD d 0 ≠ shapeE.getD (i + 1 + d) 0 := by
        simp only [List.getD_cons_succ] at hne
        rw [harith]
        exact hne
      rw [ih shapeE pos (i + 1) d hpre2 hd2 hle2 hne2, harith]
      simp only [List.getD_cons_succ]

/-- The mode-B per-tensor loop surfaces the error of the lowest failing
position: if every position before `p` passes and position `p` fails with
`err`, the loop reports exactly `err`. -/
theorem checkTensorsLoop_first_error : ∀ (as es : List DLTensor) (i p : Nat) (err : TcError),
    (∀ j, j < p →
      checkSizesAndStridesAreCompliantOne (i + j) (as.getD j default) (es.getD j default) = .ok ()) →
    p < as.length →
    p < es.length →
    checkSizesAndStridesAreCompliantOne (i + p) (as.getD p default) (es.getD p default) = .error err →
    checkTensorsLoop i as es = .error err := by
  intro as
  induction as with
  | nil =>
    intro es i p err _ hp
    simp at hp
  | cons a as ih =>
    intro es i p err hpre hp hpe herr
    cases es with
    | nil => simp at hpe
    | cons e es =>
      cases p with
      | zero =>
        simp only [List.getD_cons_zero, Nat.add_zero] at herr
        simp only [checkTensorsLoop, herr]
      | succ p =>
        have h0 := hpre 0 (Nat.succ_pos p)
        simp only [List.getD_cons_zero, Nat.add_zero] at h0
        simp only [checkTensorsLoop, h0]
        apply ih es (i + 1) p err
        · intro j hj
          have hh := hpre (j + 1) (by omega)
          simp only [List.getD_cons_succ] at hh
          have hj2 : i + (j + 1) = i + 1 + j := by omega
          rw [hj2] at hh
          exact hh
        · simp only [List.length_cons] at hp
          omega
        · simp only [List.length_cons] at hpe
          omega
        · have hj2 : i + (p + 1) = i + 1 + p := by omega
          rw [hj2] at herr
          simp only [List.getD_cons_succ] at herr
          exact herr

/-- The mode-A per-position loop surfaces the error of the lowest failing
position: if every position before `p` passes and position `p` fails with
`err`, the loop reports exactly `err`. -/
theorem checkInputsLoop_first_error :
    ∀ (ins : List DLTensor) (ps : List HalideImageParam) (i p : Nat) (err : TcError),
    (∀ j, j < p → checkInputPos (i + j) (ins.getD j default) (ps.getD j default) = .ok ()) →
    p < ins.length →
    p < ps.length →
    checkInputPos (i + p) (ins.getD p default) (ps.getD p default) = .error err →
    checkInputsLoop i ins ps = .error err := by
  intro ins
  induction ins with
  | nil =>
    intro ps i p err _ hp
    simp at hp
  | cons t ts ih =>
    intro ps i p err hpre hp hpe herr
    cases ps with
    | nil => simp at hpe
    | cons q qs =>
      cases p with
      | zero =>
        simp only [List.getD_cons_zero, Nat.add_zero] at herr
        simp only [checkInputsLoop, herr]
      | succ p =>
        have h0 := hpre 0 (Nat.succ_pos p)
        simp only [List.getD_cons_zero, Nat.add_zero] at h0
        simp only [checkInputsLoop, h0]
        apply ih qs (i + 1) p err
        · intro j hj
          have hh := hpre (j + 1) (by omega)
          simp only [List.getD_cons_succ] at hh
          have hj2 : i + (j + 1) = i + 1 + j := by omega
          rw [hj2] at hh
          exact hh
        · simp only [List.length_cons] at hp
          omega
        · simp only [List.length_cons] at hpe
          omega
        · have hj2 : i + (p + 1) = i + 1 + p := by omega
          rw [hj2] at herr
          simp only [List.getD_cons_succ] at herr
          exact herr

/-- When every position matches in canonical dtype and rank, the mode-A
loop accepts. -/
theorem checkInputsLoop_ok :
    ∀ (ins : List DLTensor) (ps : List HalideImageParam) (i : Nat),
    List.Forall₂ (fun t pr =>
      toTypeToken t.dtype = halideTypeToken pr.type ∧ t.ndim = pr.dimensions) ins ps →
    checkInputsLoop i ins ps = .ok () := by
  intro ins
  induction ins with
  | nil =>
    intro ps i h
    cases h
    simp [checkInputsLoop]
  | cons t ts ih =>
    intro ps i h
    cases h with
    | cons hpair htail =>
      rename_i q qs
      have hstep : checkInputPos i t q = .ok () := by
        simp [checkInputPos, hpair.1, hpair.2]
      simp only [checkInputsLoop, hstep]
      exact ih qs (i + 1) htail

/-- The single-tensor mode-B check never performs an out-of-bounds read:
the rank-equality check guards the per-dimension loop. -/
theorem checkOne_no_oob : ∀ (pos : Nat) (a e : DLTensor) (p d : Nat),
    checkSizesAndStridesAreCompliantOne pos a e ≠ .error (.outOfBoundsRead p d) := by
  intro pos a e p d
  unfold checkSizesAndStridesAreCompliantOne
  split
  · simp
  · split
    · simp
    · rename_i hrank _
      have hlen : a.shape.length = e.shape.length := by
        simpa [DLTensor.ndim] using not_ne_iff.mp hrank
      exact shapeCheckLoop_no_oob a.shape e.shape pos 0 (by omega) p d

/-- The mode-B per-tensor loop never performs an out-of-bounds read. -/
theorem checkTensorsLoop_no_oob : ∀ (as es : List DLTensor) (i p d : Nat),
    checkTensorsLoop i as es ≠ .error (.outOfBoundsRead p d) := by
  intro as
  induction as with
  | nil =>
    intro es i p d
    simp [checkTensorsLoop]
  | cons a as ih =>
    intro es i p d
    cases es with
    | nil => simp [checkTensorsLoop]
    | cons e es =>
      simp only [checkTensorsLoop]
      cases hstep : checkSizesAndStridesAreCompliantOne i a e with
      | error err =>
        intro hcontra
        simp only [] at hcontra
        injection hcontra with herr
        exact checkOne_no_oob i a e p d (by rw [hstep, herr])
      | ok u =>
        cases u
        exact ih es (i + 1) p d

/-- Concrete externals whose parser consumes the whole text, with one
declared 2-d float32 input, and whose inference echoes the runtime
inputs. -/
def extOk : Externals where
  parseFunction := fun _ => .ok (⟨0⟩, ⟨TK_EOF, 7⟩)
  defName := fun _ => "mm"
  translate := fun _ => .ok ⟨[⟨⟨2, 32⟩, 2⟩]⟩
  toPencil := fun _ ins _ _ => .ok ⟨ins⟩

/-- Concrete externals whose parser leaves an unconsumed token (kind 5) at
source range 42. -/
def extLeftover : Externals where
  parseFunction := fun _ => .ok (⟨0⟩, ⟨5, 42⟩)
  defName := fun _ => "mm"
  translate := fun _ => .ok ⟨[]⟩
  toPencil := fun _ ins _ _ => .ok ⟨ins⟩

/-- Concrete externals whose translator fails. -/
def extFailTranslate : Externals where
  parseFunction := fun _ => .ok (⟨0⟩, ⟨TK_EOF, 0⟩)
  defName := fun _ => "mm"
  translate := fun _ => .error (.translationError 3)
  toPencil := fun _ ins _ _ => .ok ⟨ins⟩

/-- C4: if any non-end-of-input token remains after parsing one function
definition — as it does for a text holding two or more definitions, whose
second definition's first token is left unconsumed — construction fails
with a syntax error citing the location of the first unconsumed token. -/
theorem leftover_token_syntax_error :
    ∀ (ext : Externals) (text : String) (tree : TreeRef) (cur : Token),
    ext.parseFunction text = .ok (tree, cur) →
    cur.kind ≠ TK_EOF →
    parseOneFunction ext.parseFunction text = .error (.syntaxError cur.range)
    ∧ ∀ ins, TcExecutorFromText ext text ins = .error (.syntaxError cur.range) := by
  intro ext text tree cur hp hk
  have hparse : parseOneFunction ext.parseFunction text = .error (.syntaxError cur.range) := by
    unfold parseOneFunction
    rw [hp]
    simp [hk]
  refine ⟨hparse, fun ins => ?_⟩
  unfold TcExecutorFromText
  rw [hparse]

/-- C4 witness: a parser state with leftover token kind 5 at range 42 makes
construction fail with a syntax error at range 42. -/
theorem leftover_token_syntax_error_witness :
    TcExecutorFromText extLeftover "ab" [] = .error (.syntaxError 42) :=
  (leftover_token_syntax_error extLeftover "ab" ⟨0⟩ ⟨5, 42⟩ rfl (by decide)).2 []

/-- C5: a list whose length differs from the declared parameter count fails
with an arity error citing the expected and the actual count, in both
validator modes; the quantification over arbitrary tensor contents shows
the count check precedes every per-position check. -/
theorem arity_error_first :
    (∀ (dlTensors tensorInfos : List DLTensor),
      tensorInfos.length ≠ dlTensors.length →
      checkSizesAndStridesAreCompliant dlTensors tensorInfos =
        .error (.arityError tensorInfos.length dlTensors.length))
    ∧ (∀ (inputsInfo : List DLTensor) (comps : HalideComponents),
      inputsInfo.length ≠ comps.inputs.length →
      checkInputsCompliant inputsInfo comps =
        .error (.arityError comps.inputs.length inputsInfo.length)) := by
  constructor
  · intro a b h
    simp [checkSizesAndStridesAreCompliant, h]
  · intro a b h
    simp [checkInputsCompliant, h]

/-- C5 witness: one-element against zero-element lists fail with arity
errors citing both counts, in both modes. -/
theorem arity_error_first_witness :
    checkSizesAndStridesAreCompliant [] [default] = .error (.arityError 1 0)
    ∧ checkInputsCompliant [default] ⟨[]⟩ = .error (.arityError 0 1) :=
  ⟨arity_error_first.1 [] [default] (by decide),
   arity_error_first.2 [default] ⟨[]⟩ (by decide)⟩

/-- C9: the parse-from-text entry point is single-function parsing composed
with the accept-already-parsed entry point: both run one shared
translate/validate/infer pipeline, so results agree on success and on
failure. -/
theorem text_constructor_is_parse_then_tree_constructor :
    ∀ (ext : Externals) (text : String) (ins : List DLTensor),
    TcExecutorFromText ext text ins =
      (parseOneFunction ext.parseFunction text).bind
        (fun tree => TcExecutorFromTree ext tree ins) := by
  intro ext text ins
  cases hpp : parseOneFunction ext.parseFunction text with
  | error e =>
    unfold TcExecutorFromText
    rw [hpp]
    simp [Except.bind]
  | ok tree =>
    unfold TcExecutorFromText TcExecutorFromTree
    rw [hpp]
    simp [Except.bind]

/-- C10: output inference receives specialization flag `false` when no
mapping options are attached to the execution record, and the stored
`fix_parameters_before_scheduling` value unchanged when they are. -/
theorem specialization_flag_passthrough :
    ∀ (f : HalideComponents → List DLTensor → Bool → String → Except TcError HalidePencilState)
      (comps : HalideComponents) (execInfo : ExecInfo) (ins : List DLTensor),
    (execInfo.options = none →
      getHalidePencilState f comps execInfo ins = f comps ins false execInfo.kernelName)
    ∧ (∀ o, execInfo.options = some o →
      getHalidePencilState f comps execInfo ins =
        f comps ins o.fix_parameters_before_scheduling execInfo.kernelName) := by
  intro f comps execInfo ins
  constructor
  · intro h
    simp [getHalidePencilState, specializationFlag, h]
  · intro o h
    simp [getHalidePencilState, specializationFlag, h]

/-- An inference stub that reveals which flag value it was handed. -/
def flagProbe : HalideComponents → List DLTensor → Bool → String → Except TcError HalidePencilState :=
  fun _ _ b _ => if b then .ok ⟨[default]⟩ else .ok ⟨[]⟩

/-- C10 witness: with options absent the probe is called with `false`; with
options carrying `true` it is called with `true`. -/
theorem specialization_flag_passthrough_witness :
    getHalidePencilState flagProbe ⟨[]⟩ ⟨"k", [], [], none⟩ [] = flagProbe ⟨[]⟩ [] false "k"
    ∧ getHalidePencilState flagProbe ⟨[]⟩ ⟨"k", [], [], some ⟨true⟩⟩ [] =
        flagProbe ⟨[]⟩ [] true "k" :=
  ⟨(specialization_flag_passthrough flagProbe ⟨[]⟩ ⟨"k", [], [], none⟩ []).1 rfl,
   (specialization_flag_passthrough flagProbe ⟨[]⟩ ⟨"k", [], [], some ⟨true⟩⟩ []).2 ⟨true⟩ rfl⟩

/-- C1: for a valid single-function definition (parser consumes the whole
text, translation and inference succeed) and input descriptors whose count,
rank and canonical element type match the declared parameters, construction
succeeds; the record's `inputsInfo` is the deep copy of the supplied
descriptors and equals them by structural value equality. -/
theorem tcExecutor_construction_success_deep_copy :
    ∀ (ext : Externals) (text : String) (ins : List DLTensor)
      (tree : TreeRef) (cur : Token) (comps : HalideComponents) (st : HalidePencilState),
    ext.parseFunction text = .ok (tree, cur) →
    cur.kind = TK_EOF →
    ext.translate tree = .ok comps →
    List.Forall₂ (fun t pr =>
      toTypeToken t.dtype = halideTypeToken pr.type ∧ t.ndim = pr.dimensions) ins comps.inputs →
    ext.toPencil comps ins false (ext.defName tree) = .ok st →
    TcExecutorFromText ext text ins = .ok ⟨ext.defName tree, ins, st.outputsDLT, none⟩
      ∧ makeDLTensorVector ins = ins := by
  intro ext text ins tree cur comps st hp hcur htr hmatch hpencil
  have hlen : ins.length = comps.inputs.length := hmatch.length_eq
  have hcheck : checkInputsCompliant ins comps = .ok () := by
    unfold checkInputsCompliant
    rw [if_neg (by omega)]
    exact checkInputsLoop_ok ins comps.inputs 0 hmatch
  have hcopy := makeDLTensorVector_id ins
  refine ⟨?_, hcopy⟩
  have hparse : parseOneFunction ext.parseFunction text = .ok tree := by
    unfold parseOneFunction
    rw [hp]
    simp [hcur]
  unfold TcExecutorFromText
  simp only [hparse, htr, hcheck, getHalidePencilState, specializationFlag, hcopy, hpencil]

/-- C1 witness: a 2-d float32 descriptor against a declared 2-d float32
parameter constructs successfully, the stored inputs equal to the supplied
list. -/
theorem tcExecutor_construction_success_deep_copy_witness :
    TcExecutorFromText extOk "t" [⟨⟨2, 32⟩, [4, 8]⟩] =
      .ok ⟨"mm", [⟨⟨2, 32⟩, [4, 8]⟩], [⟨⟨2, 32⟩, [4, 8]⟩], none⟩
    ∧ makeDLTensorVector [⟨⟨2, 32⟩, [4, 8]⟩] = [⟨⟨2, 32⟩, [4, 8]⟩] :=
  tcExecutor_construction_success_deep_copy extOk "t" [⟨⟨2, 32⟩, [4, 8]⟩]
    ⟨0⟩ ⟨TK_EOF, 7⟩ ⟨[⟨⟨2, 32⟩, 2⟩]⟩ ⟨[⟨⟨2, 32⟩, [4, 8]⟩]⟩ rfl rfl rfl
    (List.Forall₂.cons ⟨rfl, rfl⟩ List.Forall₂.nil) rfl

/-- C3: construction is all-or-nothing — a failure of translation, mode-A
validation or output inference yields exactly that error and no record,
and a returned record certifies that validation passed before output
inference populated `outputsInfo`. -/
theorem construction_all_or_nothing :
    ∀ (ext : Externals) (tree : TreeRef) (ins : List DLTensor),
    (∀ e, ext.translate tree = .error e → TcExecutorFromTree ext tree ins = .error e)
    ∧ (∀ comps e, ext.translate tree = .ok comps →
        checkInputsCompliant ins comps = .error e →
        TcExecutorFromTree ext tree ins = .error e)
    ∧ (∀ comps e, ext.translate tree = .ok comps →
        checkInputsCompliant ins comps = .ok () →
        ext.toPencil comps ins false (ext.defName tree) = .error e →
        TcExecutorFromTree ext tree ins = .error e)
    ∧ (∀ r, TcExecutorFromTree ext tree ins = .ok r →
        ∃ comps st, ext.translate tree = .ok comps
          ∧ checkInputsCompliant ins comps = .ok ()
          ∧ ext.toPencil comps ins false (ext.defName tree) = .ok st
          ∧ r = ⟨ext.defName tree, makeDLTensorVector ins, st.outputsDLT, none⟩) := by
  intro ext tree ins
  refine ⟨?_, ?_, ?_, ?_⟩
  · intro e h
    unfold TcExecutorFromTree
    simp only [h]
  · intro comps e h1 h2
    unfold TcExecutorFromTree
    simp only [h1, h2]
  · intro comps e h1 h2 h3
    unfold TcExecutorFromTree
    simp only [h1, h2, getHalidePencilState, specializationFlag, h3]
  · intro r h
    unfold TcExecutorFromTree at h
    cases htr : ext.translate tree with
    | error e =>
      simp only [htr] at h
      exact Except.noConfusion h
    | ok comps =>
      simp only [htr] at h
      cases hchk : checkInputsCompliant ins comps with
      | error e =>
        simp only [hchk] at h
        exact Except.noConfusion h
      | ok u =>
        cases u
        simp only [hchk, getHalidePencilState, specializationFlag] at h
        cases hpen : ext.toPencil comps ins false (ext.defName tree) with
        | error e =>
          simp only [hpen] at h
          exact Except.noConfusion h
        | ok st =>
          simp only [hpen] at h
          injection h with hr
          exact ⟨comps, st, rfl, hchk, hpen, hr.symm⟩

/-- C3 witness: a failing translator aborts construction with exactly the
translation error. -/
theorem construction_all_or_nothing_witness :
    TcExecutorFromTree extFailTranslate ⟨0⟩ [] = .error (.translationError 3) :=
  (construction_all_or_nothing extFailTranslate ⟨0⟩ []).1 (.translationError 3) rfl

/-- C6: in mode B, a tensor that matches the expected descriptor in rank
and canonical dtype but differs in shape fails with a shape-mismatch error
citing the tensor index, the lowest mismatching dimension index, the
expected size and the actual size. -/
theorem shape_mismatch_lowest_dim :
    ∀ (pos d : Nat) (a e : DLTensor),
    a.ndim = e.ndim →
    toTypeToken a.dtype = toTypeToken e.dtype →
    (∀ j, j < d → a.shape.getD j 0 = e.shape.getD j 0) →
    d < a.shape.length →
    a.shape.getD d 0 ≠ e.shape.getD d 0 →
    checkSizesAndStridesAreCompliantOne pos a e =
      .error (.shapeMismatch pos d (e.shape.getD d 0) (a.shape.getD d 0)) := by
  intro pos d a e hrank htype hpre hd hne
  unfold checkSizesAndStridesAreCompliantOne
  rw [if_neg (by simp [hrank]), if_neg (by simp [htype])]
  have hle : 0 + a.shape.length ≤ e.shape.length := by
    have : a.shape.length = e.shape.length := hrank
    omega
  have := shapeCheckLoop_first_mismatch a.shape e.shape pos 0 d
    (by intro j hj; simpa using hpre j hj) hd hle (by simpa using hne)
  simpa using this

/-- C6 witness: expected shape [4, 8] against actual [4, 9] fails with
tensor index 0, dimension 1, expected 8, actual 9 — the end-to-end example
of the spec. -/
theorem shape_mismatch_lowest_dim_witness :
    checkSizesAndStridesAreCompliantOne 0 ⟨⟨2, 32⟩, [4, 9]⟩ ⟨⟨2, 32⟩, [4, 8]⟩ =
      .error (.shapeMismatch 0 1 8 9) :=
  shape_mismatch_lowest_dim 0 1 ⟨⟨2, 32⟩, [4, 9]⟩ ⟨⟨2, 32⟩, [4, 8]⟩ rfl rfl
    (by intro j hj; have hj0 : j = 0 := by omega
        subst hj0; rfl)
    (by decide) (by decide)

/-- C7: the raw class-code + bits path and the IR-native type path
canonicalize identically, and on supported pairs the canonical token is
injective: descriptors of one logical type compare equal, descriptors of
different logical types (including equal width, different class) compare
unequal. -/
theorem canonicalization_consistent :
    (∀ (d : DLDataType) (h : HalideType), d.code = h.code → d.bits = h.bits →
      toTypeToken d = halideTypeToken h)
    ∧ (∀ d e : DLDataType, (toTypeToken d).isSome → (toTypeToken e).isSome →
      (toTypeToken d = toTypeToken e ↔ d.code = e.code ∧ d.bits = e.bits)) := by
  constructor
  · intro d h h1 h2
    simp [toTypeToken, halideTypeToken, h1, h2]
  · intro d e hd he
    obtain ⟨s, hs⟩ := Option.isSome_iff_exists.mp hd
    obtain ⟨s2, hs2⟩ := Option.isSome_iff_exists.mp he
    constructor
    · intro heq
      rw [hs, hs2] at heq
      injection heq with hss
      subst hss
      obtain ⟨hc1, hb1⟩ := toScalarToken_retract ⟨d.code, d.bits⟩ s hs
      obtain ⟨hc2, hb2⟩ := toScalarToken_retract ⟨e.code, e.bits⟩ s hs2
      exact ⟨hc1.trans hc2.symm, hb1.trans hb2.symm⟩
    · rintro ⟨h1, h2⟩
      simp [toTypeToken, h1, h2]

/-- C7 witness: float32 and int32 — equal bit width, different class — are
supported and get different tokens; equal raw pairs agree across the two
paths. -/
theorem canonicalization_consistent_witness :
    (toTypeToken ⟨2, 32⟩ = toTypeToken ⟨0, 32⟩ ↔ (2 : Nat) = 0 ∧ (32 : Nat) = 32)
    ∧ toTypeToken ⟨2, 32⟩ = halideTypeToken ⟨2, 32⟩ :=
  ⟨canonicalization_consistent.2 ⟨2, 32⟩ ⟨0, 32⟩ (by decide) (by decide),
   canonicalization_consistent.1 ⟨2, 32⟩ ⟨2, 32⟩ rfl rfl⟩

/-- C8: the per-dimension loop is bounded by the actual descriptor's shape
length; whenever the indices it touches stay within the expected shape —
in particular once the preceding rank-equality check has passed — every
access into the expected shape is in bounds, and through the public
single-tensor and vector checks no out-of-bounds read is reachable at
all. -/
theorem no_out_of_bounds_read :
    (∀ (lA shapeE : List Int) (pos i : Nat), i + lA.length ≤ shapeE.length →
      ∀ p d, shapeCheckLoop pos shapeE lA i ≠ .error (.outOfBoundsRead p d))
    ∧ (∀ (pos : Nat) (a e : DLTensor) (p d : Nat),
      checkSizesAndStridesAreCompliantOne pos a e ≠ .error (.outOfBoundsRead p d))
    ∧ (∀ (as es : List DLTensor) (p d : Nat),
      checkSizesAndStridesAreCompliant as es ≠ .error (.outOfBoundsRead p d)) := by
  refine ⟨shapeCheckLoop_no_oob, checkOne_no_oob, ?_⟩
  intro as es p d
  unfold checkSizesAndStridesAreCompliant
  split
  · simp
  · exact checkTensorsLoop_no_oob as es 0 p d

/-- C8 witness: even with a rank-mismatched pair (actual longer than
expected) the public check performs no out-of-bounds read. -/
theorem no_out_of_bounds_read_witness :
    checkSizesAndStridesAreCompliant [⟨⟨2, 32⟩, [4, 8]⟩] [⟨⟨2, 32⟩, [4]⟩] ≠
      .error (.outOfBoundsRead 0 0) :=
  no_out_of_bounds_read.2.2 [⟨⟨2, 32⟩, [4, 8]⟩] [⟨⟨2, 32⟩, [4]⟩] 0 0

/-- C2 (amended): each validator mode reports exactly one error, the
violation at the lowest failing tensor position; within a single tensor,
mode B applies its checks in the fixed order rank, then dtype, then shape
dimensions with dimension index ascending, while mode A applies dtype
before rank; no report ever aggregates several violations. -/
theorem validator_first_violation_order :
    (∀ (as es : List DLTensor) (p : Nat) (err : TcError),
      es.length = as.length →
      (∀ j, j < p →
        checkSizesAndStridesAreCompliantOne j (as.getD j default) (es.getD j default) = .ok ()) →
      p < as.length →
      checkSizesAndStridesAreCompliantOne p (as.getD p default) (es.getD p default) = .error err →
      checkSizesAndStridesAreCompliant as es = .error err)
    ∧ (∀ (pos : Nat) (a e : DLTensor), a.ndim ≠ e.ndim →
      checkSizesAndStridesAreCompliantOne pos a e = .error (.rankMismatch pos e.ndim a.ndim))
    ∧ (∀ (pos : Nat) (a e : DLTensor), a.ndim = e.ndim →
      toTypeToken a.dtype ≠ toTypeToken e.dtype →
      checkSizesAndStridesAreCompliantOne pos a e =
        .error (.typeMismatch pos (toTypeToken e.dtype) (toTypeToken a.dtype)))
    ∧ (∀ (pos d : Nat) (a e : DLTensor), a.ndim = e.ndim →
      toTypeToken a.dtype = toTypeToken e.dtype →
      (∀ j, j < d → a.shape.getD j 0 = e.shape.getD j 0) →
      d < a.shape.length →
      a.shape.getD d 0 ≠ e.shape.getD d 0 →
      checkSizesAndStridesAreCompliantOne pos a e =
        .error (.shapeMismatch pos d (e.shape.getD d 0) (a.shape.getD d 0)))
    ∧ (∀ (ins : List DLTensor) (ps : List HalideImageParam) (p : Nat) (err : TcError),
      ins.length = ps.length →
      (∀ j, j < p → checkInputPos j (ins.getD j default) (ps.getD j default) = .ok ()) →
      p < ins.length →
      checkInputPos p (ins.getD p default) (ps.getD p default) = .error err →
      checkInputsCompliant ins ⟨ps⟩ = .error err)
    ∧ (∀ (i : Nat) (t : DLTensor) (pr : HalideImageParam),
      toTypeToken t.dtype ≠ halideTypeToken pr.type →
      checkInputPos i t pr =
        .error (.typeMismatch i (halideTypeToken pr.type) (toTypeToken t.dtype)))
    ∧ (∀ (i : Nat) (t : DLTensor) (pr : HalideImageParam),
      toTypeToken t.dtype = halideTypeToken pr.type → t.ndim ≠ pr.dimensions →
      checkInputPos i t pr = .error (.rankMismatch i pr.dimensions t.ndim)) := by
  refine ⟨?_, ?_, ?_, ?_, ?_, ?_, ?_⟩
  · intro as es p err hlen hpre hp herr
    unfold checkSizesAndStridesAreCompliant
    rw [if_neg (by omega)]
    refine checkTensorsLoop_first_error as es 0 p err ?_ hp (by omega) ?_
    · intro j hj
      simpa using hpre j hj
    · simpa using herr
  · intro pos a e h
    simp [checkSizesAndStridesAreCompliantOne, h]
  · intro pos a e h h2
    simp [checkSizesAndStridesAreCompliantOne, h, h2]
  · intro pos d a e hrank htype hpre hd hne
    unfold checkSizesAndStridesAreCompliantOne
    rw [if_neg (by simp [hrank]), if_neg (by simp [htype])]
    have hle : 0 + a.shape.length ≤ e.shape.length := by
      have : a.shape.length = e.shape.length := hrank
      omega
    have := shapeCheckLoop_first_mismatch a.shape e.shape pos 0 d
      (by intro j hj; simpa using hpre j hj) hd hle (by simpa using hne)
    simpa using this
  · intro ins ps p err hlen hpre hp herr
    unfold checkInputsCompliant
    rw [if_neg (by simp only []; omega)]
    refine checkInputsLoop_first_error ins ps 0 p err ?_ hp (by omega) ?_
    · intro j hj
      simpa using hpre j hj
    · simpa using herr
  · intro i t pr h
    simp [checkInputPos, h]
  · intro i t pr h h2
    simp [checkInputPos, h, h2]

/-- C2 witness: a two-tensor mode-B list whose first tensor mismatches in
shape is reported at position 0, and a tensor mismatching in both rank and
dtype is reported as a rank mismatch (rank first in mode B). -/
theorem validator_first_violation_order_witness :
    checkSizesAndStridesAreCompliant [⟨⟨2, 32⟩, [4]⟩, ⟨⟨2, 32⟩, [5]⟩]
        [⟨⟨2, 32⟩, [9]⟩, ⟨⟨2, 32⟩, [5]⟩] = .error (.shapeMismatch 0 0 9 4)
    ∧ checkSizesAndStridesAreCompliantOne 3 ⟨⟨2, 32⟩, [4, 8]⟩ ⟨⟨0, 32⟩, [4]⟩ =
        .error (.rankMismatch 3 1 2) :=
  ⟨validator_first_violation_order.1 [⟨⟨2, 32⟩, [4]⟩, ⟨⟨2, 32⟩, [5]⟩]
      [⟨⟨2, 32⟩, [9]⟩, ⟨⟨2, 32⟩, [5]⟩] 0 (.shapeMismatch 0 0 9 4) rfl
      (fun j hj => absurd hj (by omega)) (by decide) rfl,
   validator_first_violation_order.2.1 3 ⟨⟨2, 32⟩, [4, 8]⟩ ⟨⟨0, 32⟩, [4]⟩ (by decide)⟩

/-- C2 counterexample: mode A checks canonical dtype BEFORE rank — on a
position violating both (float32 1-d tensor against a declared int32 2-d
parameter) the code reports the type mismatch, not the rank mismatch that
the claimed rank-first order would predict. -/
theorem validator_modeA_dtype_before_rank_cex :
    checkInputsCompliant [⟨⟨2, 32⟩, [4]⟩] ⟨[⟨⟨0, 32⟩, 2⟩]⟩ =
      .error (.typeMismatch 0 (some .tkInt32) (some .tkFloat))
    ∧ (⟨⟨2, 32⟩, [4]⟩ : DLTensor).ndim ≠ (⟨⟨0, 32⟩, 2⟩ : HalideImageParam).dimensions :=
  ⟨rfl, by decide⟩
